import Mathlib

/-!
Verification development for the `@nis2shield/react-guard` core:
the AES-GCM-backed crypto utilities (`src/utils/crypto.ts`) and the
`SessionWatchdog` idle/activity state machine
(`src/components/SessionWatchdog.tsx`).

The browser platform primitives (Web Crypto `subtle.encrypt/decrypt`,
`TextEncoder`/`TextDecoder`) are modelled abstractly as structures whose
fields carry the platform-specified laws (AEAD round trip, UTF-8 round
trip); everything the repository itself implements (base64 helpers,
key caching, payload assembly, null-on-failure decryption, timer and
debounce discipline) is embedded concretely from the source.
-/

namespace ReactGuard

/-! ## Base64, after `arrayBufferToBase64` / `base64ToArrayBuffer`
(`window.btoa` / `window.atob` on byte-valued char codes). -/

/-- The standard base64 alphabet used by `btoa`/`atob`. -/
def b64Alphabet : List Char :=
  ['A', 'B', 'C', 'D', 'E', 'F', 'G', 'H', 'I', 'J', 'K', 'L', 'M',
   'N', 'O', 'P', 'Q', 'R', 'S', 'T', 'U', 'V', 'W', 'X', 'Y', 'Z',
   'a', 'b', 'c', 'd', 'e', 'f', 'g', 'h', 'i', 'j', 'k', 'l', 'm',
   'n', 'o', 'p', 'q', 'r', 's', 't', 'u', 'v', 'w', 'x', 'y', 'z',
   '0', '1', '2', '3', '4', '5', '6', '7', '8', '9', '+', '/']

/-- Character for a 6-bit group. -/
def sextetToChar (n : Nat) : Char := b64Alphabet.getD n 'A'

/-- Index of a character in the base64 alphabet; `none` for characters
outside the alphabet (such characters make `atob` throw). -/
def charToSextet (c : Char) : Option Nat :=
  b64Alphabet.findIdx? (fun a => a = c)

/-- Base64 encoding of a byte list, exactly as `btoa` renders the binary
string built by `arrayBufferToBase64`: 3-byte groups map to 4 characters,
a trailing byte maps to 2 characters plus `==`, two trailing bytes map to
3 characters plus `=`. -/
def b64encode : List Nat → List Char
  | [] => []
  | [a] => [sextetToChar (a / 4), sextetToChar (a % 4 * 16), '=', '=']
  | [a, b] => [sextetToChar (a / 4), sextetToChar (a % 4 * 16 + b / 16),
               sextetToChar (b % 16 * 4), '=']
  | a :: b :: c :: rest =>
      sextetToChar (a / 4) :: sextetToChar (a % 4 * 16 + b / 16) ::
      sextetToChar (b % 16 * 4 + c / 64) :: sextetToChar (c % 64) ::
      b64encode rest

/-- Base64 decoding of a character list, following `atob`
(forgiving-base64): groups of 4 characters decode to 3 bytes, `=`
padding or an unpadded 2- or 3-character tail yields the final 1 or 2
bytes, and anything else (a lone trailing character, a non-alphabet
character, misplaced padding) fails, which `atob` reports by throwing. -/
def b64decode : List Char → Option (List Nat)
  | [] => some []
  | [c1, c2] =>
      match charToSextet c1, charToSextet c2 with
      | some s1, some s2 => some [s1 * 4 + s2 / 16]
      | _, _ => none
  | [c1, c2, c3] =>
      match charToSextet c1, charToSextet c2, charToSextet c3 with
      | some s1, some s2, some s3 =>
          some [s1 * 4 + s2 / 16, s2 % 16 * 16 + s3 / 4]
      | _, _, _ => none
  | c1 :: c2 :: c3 :: c4 :: rest =>
      match charToSextet c1, charToSextet c2 with
      | some s1, some s2 =>
          if c3 = '=' ∧ c4 = '=' ∧ rest = [] then
            some [s1 * 4 + s2 / 16]
          else
            match charToSextet c3 with
            | some s3 =>
                if c4 = '=' ∧ rest = [] then
                  some [s1 * 4 + s2 / 16, s2 % 16 * 16 + s3 / 4]
                else
                  match charToSextet c4, b64decode rest with
                  | some s4, some ds =>
                      some ((s1 * 4 + s2 / 16) :: (s2 % 16 * 16 + s3 / 4) ::
                            (s3 % 4 * 64 + s4) :: ds)
                  | _, _ => none
            | none => none
      | _, _ => none
  | _ => none

theorem charToSextet_sextetToChar : ∀ n < 64, charToSextet (sextetToChar n) = some n := by
  decide

theorem sextetToChar_ne_eq : ∀ n < 64, sextetToChar n ≠ '=' := by
  decide

/-- Decoding inverts encoding on byte lists (every entry below 256). -/
theorem b64decode_b64encode :
    ∀ l : List Nat, (∀ b ∈ l, b < 256) → b64decode (b64encode l) = some l
  | [], _ => by rfl
  | [a], h => by
      have ha : a < 256 := h a (by simp)
      have h1 := charToSextet_sextetToChar (a / 4) (by omega)
      have h2 := charToSextet_sextetToChar (a % 4 * 16) (by omega)
      simp only [b64encode, b64decode, h1, h2]
      simp
      omega
  | [a, b], h => by
      have ha : a < 256 := h a (by simp)
      have hb : b < 256 := h b (by simp)
      have h1 := charToSextet_sextetToChar (a / 4) (by omega)
      have h2 := charToSextet_sextetToChar (a % 4 * 16 + b / 16) (by omega)
      have h3 := charToSextet_sextetToChar (b % 16 * 4) (by omega)
      have hne : sextetToChar (b % 16 * 4) ≠ '=' :=
        sextetToChar_ne_eq (b % 16 * 4) (by omega)
      simp only [b64encode, b64decode, h1, h2, h3]
      simp [hne]
      omega
  | [a, b, c], h => by
      have ha : a < 256 := h a (by simp)
      have hb : b < 256 := h b (by simp)
      have hc : c < 256 := h c (by simp)
      have h1 := charToSextet_sextetToChar (a / 4) (by omega)
      have h2 := charToSextet_sextetToChar (a % 4 * 16 + b / 16) (by omega)
      have h3 := charToSextet_sextetToChar (b % 16 * 4 + c / 64) (by omega)
      have h4 := charToSextet_sextetToChar (c % 64) (by omega)
      have hne3 : sextetToChar (b % 16 * 4 + c / 64) ≠ '=' :=
        sextetToChar_ne_eq _ (by omega)
      have hne4 : sextetToChar (c % 64) ≠ '=' :=
        sextetToChar_ne_eq _ (by omega)
      have hcons : b64encode [a, b, c] =
          sextetToChar (a / 4) :: sextetToChar (a % 4 * 16 + b / 16) ::
          sextetToChar (b % 16 * 4 + c / 64) :: sextetToChar (c % 64) ::
          b64encode [] := rfl
      rw [hcons]
      simp only [b64encode, b64decode, h1, h2, h3, h4]
      simp [hne3, hne4]
      omega
  | a :: b :: c :: d :: rest, h => by
      have ha : a < 256 := h a (by simp)
      have hb : b < 256 := h b (by simp)
      have hc : c < 256 := h c (by simp)
      have ih := b64decode_b64encode (d :: rest)
        (fun x hx => h x
          (List.mem_cons_of_mem _ (List.mem_cons_of_mem _ (List.mem_cons_of_mem _ hx))))
      have h1 := charToSextet_sextetToChar (a / 4) (by omega)
      have h2 := charToSextet_sextetToChar (a % 4 * 16 + b / 16) (by omega)
      have h3 := charToSextet_sextetToChar (b % 16 * 4 + c / 64) (by omega)
      have h4 := charToSextet_sextetToChar (c % 64) (by omega)
      have hne3 : sextetToChar (b % 16 * 4 + c / 64) ≠ '=' :=
        sextetToChar_ne_eq _ (by omega)
      have hne4 : sextetToChar (c % 64) ≠ '=' :=
        sextetToChar_ne_eq _ (by omega)
      have hcons : b64encode (a :: b :: c :: d :: rest) =
          sextetToChar (a / 4) :: sextetToChar (a % 4 * 16 + b / 16) ::
          sextetToChar (b % 16 * 4 + c / 64) :: sextetToChar (c % 64) ::
          b64encode (d :: rest) := rfl
      rw [hcons]
      simp only [b64decode, h1, h2, h3, h4]
      simp [hne3, hne4, ih]
      omega

/-! ## Platform primitives, modelled abstractly

`window.crypto.subtle` (AES-GCM) and `TextEncoder`/`TextDecoder` are
browser primitives, not code of this repository.  They are modelled as
structures whose proof fields state exactly the platform contract the
crypto module relies on: AEAD decryption inverts encryption under the
same key and IV, ciphertexts and UTF-8 encodings are byte sequences,
and `TextDecoder` inverts `TextEncoder`.  Keys are identified by the
value `crypto.subtle.generateKey` produced. -/

/-- Model of the platform AEAD cipher (`crypto.subtle` with AES-GCM):
`encrypt key iv plaintext` gives the ciphertext bytes (tag included),
`decrypt key iv ciphertext` gives the plaintext bytes or fails
(a failure `crypto.subtle.decrypt` reports by rejecting). -/
structure AEAD where
  encrypt : Nat → List Nat → List Nat → List Nat
  decrypt : Nat → List Nat → List Nat → Option (List Nat)
  decrypt_encrypt : ∀ k iv m, decrypt k iv (encrypt k iv m) = some m
  encrypt_bytes : ∀ k iv m, (∀ b ∈ m, b < 256) → ∀ b ∈ encrypt k iv m, b < 256

/-- Model of `TextEncoder` / `TextDecoder` (UTF-8): `encode` yields the
byte sequence of a string, `decode` is total (the decoder substitutes
replacement characters rather than failing) and inverts `encode`. -/
structure TextCodec where
  encode : String → List Nat
  decode : List Nat → String
  encode_bytes : ∀ s, ∀ b ∈ encode s, b < 256
  decode_encode : ∀ s, decode (encode s) = s

/-! ## The crypto module (`src/utils/crypto.ts`)

The module-level mutable `cachedKey : CryptoKey | null` is threaded
explicitly as an `Option Nat` state.  `gen` stands for the key that
`crypto.subtle.generateKey` would return if invoked by this call, and
`rand n` for the `n` fresh bytes `crypto.getRandomValues(new
Uint8Array(n))` would fill in. -/

/-- `getEncryptionKey`: returns the cached key if present, otherwise
generates a key, caches it and returns it.  Result: the returned key
and the updated cache. -/
def getEncryptionKey (gen : Nat) (st : Option Nat) : Nat × Option Nat :=
  match st with
  | some k => (k, some k)
  | none => (gen, some gen)

/-- `encryptData`: obtains the (possibly fresh) key, UTF-8-encodes the
text, draws a fresh random 12-byte IV, AEAD-encrypts, and returns both
the IV and the ciphertext base64-encoded, plus the updated key cache. -/
def encryptData (P : AEAD) (C : TextCodec) (gen : Nat) (rand : Nat → List Nat)
    (st : Option Nat) (text : String) : (String × String) × Option Nat :=
  let r := getEncryptionKey gen st
  let encoded := C.encode text
  let iv := rand 12
  let encrypted := P.encrypt r.1 iv encoded
  ((String.mk (b64encode iv), String.mk (b64encode encrypted)), r.2)

/-- `decryptData encryptedData ivStr`: obtains the key, base64-decodes
the IV and the ciphertext, AEAD-decrypts and UTF-8-decodes; every
failure along the way (malformed base64, rejected decryption) is caught
and mapped to `none`, mirroring the `try/catch` that returns `null`. -/
def decryptData (P : AEAD) (C : TextCodec) (gen : Nat) (st : Option Nat)
    (encryptedData ivStr : String) : Option String × Option Nat :=
  let r := getEncryptionKey gen st
  match b64decode ivStr.data, b64decode encryptedData.data with
  | some iv, some dat =>
      match P.decrypt r.1 iv dat with
      | some pt => (some (C.decode pt), r.2)
      | none => (none, r.2)
  | _, _ => (none, r.2)

/-! ### Concrete platform instances used for witnesses -/

/-- A lawful `AEAD` instance (ciphertext = plaintext) used to
instantiate theorems on concrete inputs. -/
def plainAEAD : AEAD where
  encrypt := fun _ _ m => m
  decrypt := fun _ _ c => some c
  decrypt_encrypt := fun _ _ _ => rfl
  encrypt_bytes := fun _ _ _ h => h

/-- Character-list encoding underlying `byteCodec`: each code point as
three base-256 digits. -/
def byteEncodeChars : List Char → List Nat
  | [] => []
  | c :: cs => c.toNat / 65536 :: c.toNat / 256 % 256 :: c.toNat % 256 ::
      byteEncodeChars cs

/-- Decoding underlying `byteCodec`: reads back three base-256 digits
per character. -/
def byteDecodeChars : List Nat → List Char
  | a :: b :: c :: rest => Char.ofNat (a * 65536 + b * 256 + c) :: byteDecodeChars rest
  | _ => []

theorem char_toNat_lt (c : Char) : c.toNat < 1114112 := by
  have h := c.valid
  rcases h with h | ⟨_, h⟩ <;>
    simp only [Char.toNat] <;> omega

/-- A lawful `TextCodec` instance used to instantiate theorems on
concrete inputs. -/
def byteCodec : TextCodec where
  encode := fun s => byteEncodeChars s.data
  decode := fun l => String.mk (byteDecodeChars l)
  encode_bytes := by
    intro s
    suffices hl : ∀ cs : List Char, ∀ b ∈ byteEncodeChars cs, b < 256 by
      exact hl s.data
    intro cs
    induction cs with
    | nil => simp [byteEncodeChars]
    | cons c cs ih =>
        intro b hb
        simp only [byteEncodeChars, List.mem_cons] at hb
        have := char_toNat_lt c
        rcases hb with h | h | h | h
        · omega
        · omega
        · omega
        · exact ih b h
  decode_encode := by
    intro s
    suffices hl : ∀ cs : List Char, byteDecodeChars (byteEncodeChars cs) = cs by
      show String.mk (byteDecodeChars (byteEncodeChars s.data)) = s
      rw [hl s.data]
    intro cs
    induction cs with
    | nil => rfl
    | cons c cs ih =>
        have hlt := char_toNat_lt c
        have harith : c.toNat / 65536 * 65536 + c.toNat / 256 % 256 * 256 + c.toNat % 256
            = c.toNat := by omega
        simp only [byteEncodeChars, byteDecodeChars, ih, harith, Char.ofNat_toNat]

/-! ## Crypto claims -/

/-- C1: for every text string `s`, encrypting `s` with `encryptData` and
then decrypting the resulting payload with `decryptData` under the same
cached key instance (the cache state the encryption produced) returns
`s`.  `P` and `C` are any platform cipher and text codec obeying the
AEAD/UTF-8 contracts, `gen`/`gen2` the keys the platform would generate
on a cache miss, and `rand` the random source, whose 12-byte draw is
byte-valued. -/
theorem encrypt_decrypt_roundtrip (P : AEAD) (C : TextCodec) (gen gen2 : Nat)
    (rand : Nat → List Nat) (st : Option Nat) (s : String)
    (hrand : ∀ b ∈ rand 12, b < 256) :
    (decryptData P C gen2 (encryptData P C gen rand st s).2
      (encryptData P C gen rand st s).1.2 (encryptData P C gen rand st s).1.1).1
      = some s := by
  obtain ⟨K, hK⟩ : ∃ K, getEncryptionKey gen st = (K, some K) := by
    cases st with
    | none => exact ⟨gen, rfl⟩
    | some k => exact ⟨k, rfl⟩
  have hkey : (encryptData P C gen rand st s).2 = some K := by
    unfold encryptData
    rw [hK]
  have henc1 : (encryptData P C gen rand st s).1.1
      = String.mk (b64encode (rand 12)) := rfl
  have henc2 : (encryptData P C gen rand st s).1.2
      = String.mk (b64encode (P.encrypt K (rand 12) (C.encode s))) := by
    unfold encryptData
    rw [hK]
  rw [hkey, henc1, henc2]
  have hct : ∀ b ∈ P.encrypt K (rand 12) (C.encode s), b < 256 :=
    P.encrypt_bytes _ _ _ (C.encode_bytes s)
  have hivdec : b64decode (String.mk (b64encode (rand 12))).data = some (rand 12) :=
    b64decode_b64encode _ hrand
  have hdatdec : b64decode (String.mk (b64encode
      (P.encrypt K (rand 12) (C.encode s)))).data
      = some (P.encrypt K (rand 12) (C.encode s)) :=
    b64decode_b64encode _ hct
  simp only [decryptData, getEncryptionKey, hivdec, hdatdec, P.decrypt_encrypt,
    C.decode_encode]

/-- Witness for C1: the round trip evaluated at a concrete instance and
input. -/
theorem encrypt_decrypt_roundtrip_witness :
    (decryptData plainAEAD byteCodec 7 (encryptData plainAEAD byteCodec 3
        (fun n => List.replicate n 0) none "iban").2
      (encryptData plainAEAD byteCodec 3 (fun n => List.replicate n 0) none "iban").1.2
      (encryptData plainAEAD byteCodec 3 (fun n => List.replicate n 0) none "iban").1.1).1
      = some "iban" :=
  encrypt_decrypt_roundtrip plainAEAD byteCodec 3 7
    (fun n => List.replicate n 0) none "iban" (by decide)

/-- C2: `decryptData` is fail-closed.  Its result is always either a
decrypted string or `none` (the model of returning `null` from the
`catch`, never an uncaught throw); a malformed base64 `iv` or `data`
yields `none`; a rejected AEAD decryption (key mismatch, corrupted
ciphertext, tag mismatch) yields `none`; and a successful result is
exactly the decoded output of the platform cipher, never anything
else. -/
theorem decryptData_fail_closed (P : AEAD) (C : TextCodec) (gen : Nat)
    (st : Option Nat) (encryptedData ivStr : String) :
    ((decryptData P C gen st encryptedData ivStr).1 = none ∨
      ∃ s, (decryptData P C gen st encryptedData ivStr).1 = some s) ∧
    (b64decode ivStr.data = none →
      (decryptData P C gen st encryptedData ivStr).1 = none) ∧
    (b64decode encryptedData.data = none →
      (decryptData P C gen st encryptedData ivStr).1 = none) ∧
    (∀ iv dat, b64decode ivStr.data = some iv → b64decode encryptedData.data = some dat →
      P.decrypt (getEncryptionKey gen st).1 iv dat = none →
      (decryptData P C gen st encryptedData ivStr).1 = none) ∧
    (∀ iv dat pt, b64decode ivStr.data = some iv →
      b64decode encryptedData.data = some dat →
      P.decrypt (getEncryptionKey gen st).1 iv dat = some pt →
      (decryptData P C gen st encryptedData ivStr).1 = some (C.decode pt)) := by
  unfold decryptData
  refine ⟨?_, ?_, ?_, ?_, ?_⟩
  · rcases hiv : b64decode ivStr.data with _ | iv <;>
      rcases hdat : b64decode encryptedData.data with _ | dat <;>
      simp [hiv, hdat]
    rcases hdec : P.decrypt (getEncryptionKey gen st).1 iv dat with _ | pt <;>
      simp [hdec]
  · intro hiv
    rcases hdat : b64decode encryptedData.data with _ | dat <;> simp [hiv, hdat]
  · intro hdat
    rcases hiv : b64decode ivStr.data with _ | iv <;> simp [hiv, hdat]
  · intro iv dat hiv hdat hdec
    simp [hiv, hdat, hdec]
  · intro iv dat pt hiv hdat hdec
    simp [hiv, hdat, hdec]

/-- Witness for C2: a payload whose `iv` is not base64 (`"!"`) decrypts
to `none` at a concrete instance. -/
theorem decryptData_fail_closed_witness :
    (decryptData plainAEAD byteCodec 0 (some 5) "AAAA" "!").1 = none :=
  (decryptData_fail_closed plainAEAD byteCodec 0 (some 5) "AAAA" "!").2.1 (by rfl)

/-- C7: two consecutive `encryptData` calls share the single cached key
(the second key lookup returns the key cached by the first call without
generating) while each call's `iv` field base64-decodes to exactly its
own fresh 12-byte random draw, so distinct draws give distinct `iv`
strings. -/
theorem encryptData_key_stability (P : AEAD) (C : TextCodec) (gen gen2 : Nat)
    (rand1 rand2 : Nat → List Nat) (st : Option Nat) (s1 s2 : String)
    (hr1 : (rand1 12).length = 12 ∧ ∀ b ∈ rand1 12, b < 256)
    (hr2 : (rand2 12).length = 12 ∧ ∀ b ∈ rand2 12, b < 256) :
    getEncryptionKey gen2 (encryptData P C gen rand1 st s1).2
      = ((getEncryptionKey gen st).1, (encryptData P C gen rand1 st s1).2) ∧
    (encryptData P C gen2 rand2 (encryptData P C gen rand1 st s1).2 s2).2
      = (encryptData P C gen rand1 st s1).2 ∧
    b64decode (encryptData P C gen rand1 st s1).1.1.data = some (rand1 12) ∧
    (rand1 12).length = 12 ∧
    b64decode (encryptData P C gen2 rand2 (encryptData P C gen rand1 st s1).2 s2).1.1.data
      = some (rand2 12) ∧
    (rand2 12).length = 12 ∧
    (rand1 12 ≠ rand2 12 →
      (encryptData P C gen rand1 st s1).1.1
        ≠ (encryptData P C gen2 rand2 (encryptData P C gen rand1 st s1).2 s2).1.1) := by
  have hkey : (encryptData P C gen rand1 st s1).2 = some (getEncryptionKey gen st).1 := by
    unfold encryptData getEncryptionKey
    cases st <;> rfl
  have hiv1 : (encryptData P C gen rand1 st s1).1.1 = String.mk (b64encode (rand1 12)) := rfl
  have hiv2 : ∀ st2, (encryptData P C gen2 rand2 st2 s2).1.1
      = String.mk (b64encode (rand2 12)) := fun _ => rfl
  refine ⟨?_, ?_, ?_, hr1.1, ?_, hr2.1, ?_⟩
  · rw [hkey]
    rfl
  · rw [hkey]
    rfl
  · rw [hiv1]
    exact b64decode_b64encode _ hr1.2
  · rw [hiv2]
    exact b64decode_b64encode _ hr2.2
  · intro hneq heq
    apply hneq
    have hdec1 : b64decode (encryptData P C gen rand1 st s1).1.1.data = some (rand1 12) := by
      rw [hiv1]
      exact b64decode_b64encode _ hr1.2
    have hdec2 : b64decode (encryptData P C gen2 rand2
        (encryptData P C gen rand1 st s1).2 s2).1.1.data = some (rand2 12) := by
      rw [hiv2]
      exact b64decode_b64encode _ hr2.2
    rw [heq, hdec2] at hdec1
    exact (Option.some_injective _ hdec1).symm

/-- Witness for C7: evaluated at a concrete instance with two distinct
random draws. -/
theorem encryptData_key_stability_witness :
    getEncryptionKey 9 (encryptData plainAEAD byteCodec 3
        (fun n => List.replicate n 0) none "a").2
      = ((getEncryptionKey 3 none).1, (encryptData plainAEAD byteCodec 3
        (fun n => List.replicate n 0) none "a").2) ∧
    (encryptData plainAEAD byteCodec 9 (fun n => List.replicate n 1)
        (encryptData plainAEAD byteCodec 3 (fun n => List.replicate n 0) none "a").2 "b").2
      = (encryptData plainAEAD byteCodec 3 (fun n => List.replicate n 0) none "a").2 ∧
    b64decode (encryptData plainAEAD byteCodec 3
        (fun n => List.replicate n 0) none "a").1.1.data = some (List.replicate 12 0) ∧
    (List.replicate 12 (0 : Nat)).length = 12 ∧
    b64decode (encryptData plainAEAD byteCodec 9 (fun n => List.replicate n 1)
        (encryptData plainAEAD byteCodec 3
          (fun n => List.replicate n 0) none "a").2 "b").1.1.data
      = some (List.replicate 12 1) ∧
    (List.replicate 12 (1 : Nat)).length = 12 ∧
    (List.replicate 12 (0 : Nat) ≠ List.replicate 12 1 →
      (encryptData plainAEAD byteCodec 3 (fun n => List.replicate n 0) none "a").1.1
        ≠ (encryptData plainAEAD byteCodec 9 (fun n => List.replicate n 1)
          (encryptData plainAEAD byteCodec 3
            (fun n => List.replicate n 0) none "a").2 "b").1.1) :=
  encryptData_key_stability plainAEAD byteCodec 3 9
    (fun n => List.replicate n 0) (fun n => List.replicate n 1) none "a" "b"
    (by constructor <;> decide) (by constructor <;> decide)

/-! ## The `SessionWatchdog` idle/activity machine
(`src/components/SessionWatchdog.tsx`)

The component is embedded as a discrete-event machine.  Wall-clock
times are `Nat` milliseconds (`Date.now()`).  `setTimeout` handles are
modelled faithfully as a list of scheduled, not-yet-fired timeouts
`(id, deadline)`, with `timerRef` holding the last handle stored in
`timerRef.current` (possibly stale after its timeout fired).  Scheduled
timeouts fire when the clock passes their deadline; external events
(the five DOM activity events, `visibilitychange`, unmount) arrive in
time order.  Between consecutive inputs any due timeout fires first,
matching the event loop's ordering of an earlier-scheduled timer. -/

/-- External inputs to the watchdog: a qualifying DOM activity event
(`mousedown`/`mousemove`/`keydown`/`scroll`/`touchstart`), the tab
going hidden, the tab becoming visible again, and unmount. -/
inductive WEvent
  | activity
  | visibilityHidden
  | visibilityVisible
  | unmount
deriving DecidableEq

/-- Observable outputs: the `onIdle` callback (with `setIdle(true)` and
the incident report) and the `onActive` callback. -/
inductive WNotif
  | idleFired
  | activeFired
deriving DecidableEq

/-- Watchdog state: the `lastActivityRef` timestamp, scheduled timeouts
`(id, deadline)`, the `timerRef.current` handle, the next fresh timeout
id, the context's `isIdle` flag, and whether listeners are attached. -/
structure WState where
  lastActivity : Nat
  pending : List (Nat × Nat)
  timerRef : Option Nat
  nextId : Nat
  isIdle : Bool
  running : Bool
deriving DecidableEq

/-- `(config.idleTimeoutMinutes || 15) * 60 * 1000`: JavaScript `||`
falls back to 15 for a missing value and also for `0`. -/
def timeoutMs (cfg : Option Nat) : Nat :=
  (match cfg with
   | none => 15
   | some 0 => 15
   | some (n + 1) => n + 1) * 60 * 1000

/-- `if (timerRef.current) clearTimeout(timerRef.current)`. -/
def clearTimer (s : WState) : WState :=
  match s.timerRef with
  | some i => { s with pending := s.pending.filter (fun p => !decide (p.1 = i)) }
  | none => s

/-- `resetTimer`: cancel the referenced timeout and schedule a fresh one
`timeoutMs` from now. -/
def resetTimer (cfg : Option Nat) (now : Nat) (s : WState) : WState :=
  { clearTimer s with
      pending := ((clearTimer s).nextId, now + timeoutMs cfg) :: (clearTimer s).pending,
      timerRef := some (clearTimer s).nextId,
      nextId := (clearTimer s).nextId + 1 }

/-- `handleActivity`: process the signal only if more than 1000 ms have
passed since `lastActivityRef`; then record the timestamp, clear the
idle flag, fire `onActive` and rearm the timer.  Otherwise do nothing. -/
def handleActivity (cfg : Option Nat) (now : Nat) (s : WState) :
    WState × List (Nat × WNotif) :=
  if now - s.lastActivity > 1000 then
    (resetTimer cfg now { s with lastActivity := now, isIdle := false },
     [(now, WNotif.activeFired)])
  else (s, [])

/-- Fire every scheduled timeout due by `now`: each runs the `setTimeout`
callback, which sets the idle flag and fires `onIdle` (with the
incident report) at its deadline. -/
def flushTimer (now : Nat) (s : WState) : WState × List (Nat × WNotif) :=
  ({ s with pending := s.pending.filter (fun p => !decide (p.2 ≤ now)),
            isIdle := if (s.pending.filter (fun p => decide (p.2 ≤ now))).isEmpty
                      then s.isIdle else true },
   (s.pending.filter (fun p => decide (p.2 ≤ now))).map (fun p => (p.2, WNotif.idleFired)))

/-- Dispatch one external input: DOM activity and a visibility change to
non-hidden run `handleActivity`; a visibility change to hidden is a
no-op (the handler's `document.hidden` branch only has comments);
unmount clears the referenced timeout and detaches the listeners. -/
def handleEvent (cfg : Option Nat) : Nat → WEvent → WState → WState × List (Nat × WNotif)
  | now, WEvent.activity, s => handleActivity cfg now s
  | now, WEvent.visibilityVisible, s => handleActivity cfg now s
  | _, WEvent.visibilityHidden, s => (s, [])
  | _, WEvent.unmount, s => ({ clearTimer s with running := false }, [])

/-- One input with its arrival time: any due timeout fires first, then,
if the listeners are still attached, the input is handled. -/
def stepEvent (cfg : Option Nat) (s : WState) (e : Nat × WEvent) :
    WState × List (Nat × WNotif) :=
  if (flushTimer e.1 s).1.running then
    ((handleEvent cfg e.1 e.2 (flushTimer e.1 s).1).1,
     (flushTimer e.1 s).2 ++ (handleEvent cfg e.1 e.2 (flushTimer e.1 s).1).2)
  else flushTimer e.1 s

/-- Run a time-ordered input list, then let the clock advance to
`endT`, firing any still-due timeout. -/
def runFrom (cfg : Option Nat) (s : WState) :
    List (Nat × WEvent) → Nat → WState × List (Nat × WNotif)
  | [], endT => flushTimer endT s
  | e :: rest, endT =>
      ((runFrom cfg (stepEvent cfg s e).1 rest endT).1,
       (stepEvent cfg s e).2 ++ (runFrom cfg (stepEvent cfg s e).1 rest endT).2)

/-- Mount at `t0`: `lastActivityRef` is initialised to `Date.now()`, the
idle flag starts false, the mount effect attaches the listeners and
calls `resetTimer`. -/
def initState (cfg : Option Nat) (t0 : Nat) : WState :=
  resetTimer cfg t0
    { lastActivity := t0, pending := [], timerRef := none,
      nextId := 1, isIdle := false, running := true }

/-- A full run from mount at `t0` to the horizon `endT`. -/
def runWatchdog (cfg : Option Nat) (t0 : Nat) (evs : List (Nat × WEvent))
    (endT : Nat) : WState × List (Nat × WNotif) :=
  runFrom cfg (initState cfg t0) evs endT

/-- Machine invariant: at most one scheduled timeout exists, every
scheduled timeout is the one `timerRef` references, nothing is
scheduled once the listeners are detached, and a scheduled timeout's
deadline is exactly `lastActivity + timeoutMs`. -/
def WInv (cfg : Option Nat) (s : WState) : Prop :=
  s.pending.length ≤ 1 ∧
  (∀ p ∈ s.pending, s.timerRef = some p.1) ∧
  (s.running = false → s.pending = []) ∧
  (∀ p ∈ s.pending, p.2 = s.lastActivity + timeoutMs cfg)

theorem timeoutMs_ge (cfg : Option Nat) : 60000 ≤ timeoutMs cfg := by
  rcases cfg with _ | n
  · decide
  · rcases n with _ | m
    · decide
    · show 60000 ≤ (m + 1) * 60 * 1000
      omega

theorem clearTimer_pending_nil {s : WState}
    (h : ∀ p ∈ s.pending, s.timerRef = some p.1) : (clearTimer s).pending = [] := by
  unfold clearTimer
  rcases href : s.timerRef with _ | i
  · rcases hp : s.pending with _ | ⟨p, rest⟩
    · simp [href, hp]
    · have := h p (by rw [hp]; exact List.mem_cons_self p rest)
      rw [href] at this
      exact absurd this (by simp)
  · simp only [List.filter_eq_nil_iff]
    intro p hp
    have := h p hp
    rw [href] at this
    simp only [Option.some.injEq] at this
    simp [this]

theorem clearTimer_fields (s : WState) :
    (clearTimer s).lastActivity = s.lastActivity ∧
    (clearTimer s).timerRef = s.timerRef ∧
    (clearTimer s).nextId = s.nextId ∧
    (clearTimer s).isIdle = s.isIdle ∧
    (clearTimer s).running = s.running := by
  rcases href : s.timerRef with _ | i <;> simp [clearTimer, href]

theorem clearTimer_lastActivity (s : WState) :
    (clearTimer s).lastActivity = s.lastActivity := (clearTimer_fields s).1

theorem clearTimer_timerRef (s : WState) :
    (clearTimer s).timerRef = s.timerRef := (clearTimer_fields s).2.1

theorem clearTimer_nextId (s : WState) :
    (clearTimer s).nextId = s.nextId := (clearTimer_fields s).2.2.1

theorem clearTimer_isIdle (s : WState) :
    (clearTimer s).isIdle = s.isIdle := (clearTimer_fields s).2.2.2.1

theorem clearTimer_running (s : WState) :
    (clearTimer s).running = s.running := (clearTimer_fields s).2.2.2.2

theorem stepEvent_eq (cfg : Option Nat) (s : WState) (t : Nat) (ev : WEvent) :
    stepEvent cfg s (t, ev) =
      if (flushTimer t s).1.running = true then
        ((handleEvent cfg t ev (flushTimer t s).1).1,
         (flushTimer t s).2 ++ (handleEvent cfg t ev (flushTimer t s).1).2)
      else flushTimer t s := rfl

theorem runFrom_nil (cfg : Option Nat) (s : WState) (endT : Nat) :
    runFrom cfg s [] endT = flushTimer endT s := rfl

theorem runFrom_cons (cfg : Option Nat) (s : WState) (e : Nat × WEvent)
    (rest : List (Nat × WEvent)) (endT : Nat) :
    runFrom cfg s (e :: rest) endT =
      ((runFrom cfg (stepEvent cfg s e).1 rest endT).1,
       (stepEvent cfg s e).2 ++ (runFrom cfg (stepEvent cfg s e).1 rest endT).2) := rfl

theorem winv_flushTimer (cfg : Option Nat) (now : Nat) {s : WState} (h : WInv cfg s) :
    WInv cfg (flushTimer now s).1 := by
  obtain ⟨h1, h2, h3, h4⟩ := h
  refine ⟨?_, ?_, ?_, ?_⟩
  · exact le_trans (List.length_filter_le _ _) h1
  · intro p hp
    exact h2 p (List.mem_of_mem_filter hp)
  · intro hr
    simp only [flushTimer] at hr ⊢
    rw [h3 hr]
    rfl
  · intro p hp
    exact h4 p (List.mem_of_mem_filter hp)

theorem winv_handleActivity (cfg : Option Nat) (now : Nat) {s : WState} (h : WInv cfg s)
    (hrun : s.running = true) : WInv cfg (handleActivity cfg now s).1 := by
  obtain ⟨h1, h2, h3, h4⟩ := h
  unfold handleActivity
  by_cases hd : now - s.lastActivity > 1000
  · simp only [hd, if_pos]
    set s0 : WState := { s with lastActivity := now, isIdle := false } with hs0
    have h2b : ∀ p ∈ s0.pending, s0.timerRef = some p.1 := h2
    have hnil : (clearTimer s0).pending = [] := clearTimer_pending_nil h2b
    obtain ⟨hf1, hf2, hf3, hf4, hf5⟩ := clearTimer_fields s0
    unfold resetTimer
    refine ⟨?_, ?_, ?_, ?_⟩
    · simp [hnil]
    · intro p hp
      simp only [hnil] at hp
      simp only [List.mem_singleton] at hp
      simp [hp]
    · intro hr
      simp only at hr
      rw [hf5] at hr
      rw [hrun] at hr
      exact absurd hr (by simp)
    · intro p hp
      simp only [hnil] at hp
      simp only [List.mem_singleton] at hp
      simp [hp, hf1]
  · simp only [hd, if_neg, ite_false]
    exact ⟨h1, h2, h3, h4⟩

theorem winv_stepEvent (cfg : Option Nat) {s : WState} (e : Nat × WEvent)
    (h : WInv cfg s) : WInv cfg (stepEvent cfg s e).1 := by
  unfold stepEvent
  have hf := winv_flushTimer cfg e.1 h
  by_cases hr : (flushTimer e.1 s).1.running = true
  · simp only [hr, if_pos]
    rcases e with ⟨t, ev⟩
    rcases ev with _ | _ | _ | _
    · exact winv_handleActivity cfg t hf hr
    · exact hf
    · exact winv_handleActivity cfg t hf hr
    · obtain ⟨h1, h2, h3, h4⟩ := hf
      have hnil : (clearTimer (flushTimer t s).1).pending = [] := clearTimer_pending_nil h2
      obtain ⟨hf1, hf2, hf3, hf4, hf5⟩ := clearTimer_fields (flushTimer t s).1
      exact ⟨by simp [handleEvent, hnil], by simp [handleEvent, hnil],
        fun _ => by simp [handleEvent, hnil], by simp [handleEvent, hnil]⟩
  · simp only [if_neg hr]
    exact hf

theorem winv_runFrom (cfg : Option Nat) :
    ∀ (evs : List (Nat × WEvent)) (endT : Nat) {s : WState}, WInv cfg s →
      WInv cfg (runFrom cfg s evs endT).1
  | [], endT, _, h => winv_flushTimer cfg endT h
  | e :: rest, endT, _, h =>
      winv_runFrom cfg rest endT (winv_stepEvent cfg e h)

theorem winv_initState (cfg : Option Nat) (t0 : Nat) : WInv cfg (initState cfg t0) := by
  refine ⟨?_, ?_, ?_, ?_⟩ <;> simp [initState, resetTimer, clearTimer]

theorem flushTimer_fields (now : Nat) (s : WState) :
    (flushTimer now s).1.lastActivity = s.lastActivity ∧
    (flushTimer now s).1.timerRef = s.timerRef ∧
    (flushTimer now s).1.nextId = s.nextId ∧
    (flushTimer now s).1.running = s.running := by
  refine ⟨rfl, rfl, rfl, rfl⟩

theorem flushTimer_none {now : Nat} {s : WState}
    (h : ∀ p ∈ s.pending, ¬ p.2 ≤ now) : flushTimer now s = (s, []) := by
  have hdue : s.pending.filter (fun p => decide (p.2 ≤ now)) = [] :=
    List.filter_eq_nil_iff.mpr (by intro p hp; simpa using h p hp)
  have hkeep : s.pending.filter (fun p => !decide (p.2 ≤ now)) = s.pending :=
    List.filter_eq_self.mpr (by intro p hp; simpa using h p hp)
  simp [flushTimer, hdue, hkeep]

theorem flush_log_no_active (now : Nat) (s : WState) :
    (flushTimer now s).2.filter (fun e => decide (e.2 = WNotif.activeFired)) = [] := by
  show ((s.pending.filter (fun p => decide (p.2 ≤ now))).map
      (fun p => (p.2, WNotif.idleFired))).filter
      (fun e => decide (e.2 = WNotif.activeFired)) = []
  generalize s.pending.filter (fun p => decide (p.2 ≤ now)) = l
  induction l with
  | nil => rfl
  | cons p ps ih => simpa using ih

theorem runFrom_stopped (cfg : Option Nat) :
    ∀ (evs : List (Nat × WEvent)) (endT : Nat) {s : WState},
      s.running = false → s.pending = [] → runFrom cfg s evs endT = (s, [])
  | [], endT, s, _, hp => by
      show flushTimer endT s = (s, [])
      exact flushTimer_none (by rw [hp]; intro p hp2; exact absurd hp2 (List.not_mem_nil p))
  | e :: rest, endT, s, hr, hp => by
      have hf : flushTimer e.1 s = (s, []) :=
        flushTimer_none (by rw [hp]; intro p hp2; exact absurd hp2 (List.not_mem_nil p))
      have hstep : stepEvent cfg s e = (s, []) := by
        unfold stepEvent
        rw [hf]
        simp [hr]
      have ih := runFrom_stopped cfg rest endT hr hp
      show ((runFrom cfg (stepEvent cfg s e).1 rest endT).1,
        (stepEvent cfg s e).2 ++ (runFrom cfg (stepEvent cfg s e).1 rest endT).2) = (s, [])
      rw [hstep]
      simp only at ih ⊢
      rw [ih]
      simp

/-! ## Watchdog claims -/

/-- C3: an `onIdle` notification fires exactly `timeoutMs` after the
last recorded activity timestamp (so never earlier than the configured
timeout after it); concretely, with `timeout = 1` minute and a single
activity at 30,000 ms the idle transition is logged at 90,000 ms from
start, not 60,000 ms. -/
theorem idle_timing :
    (∀ (cfg : Option Nat) (now t : Nat) (s : WState), WInv cfg s →
      (t, WNotif.idleFired) ∈ (flushTimer now s).2 →
      t = s.lastActivity + timeoutMs cfg) ∧
    (runWatchdog (some 1) 0 [(30000, WEvent.activity)] 100000).2
      = [(30000, WNotif.activeFired), (90000, WNotif.idleFired)] := by
  constructor
  · intro cfg now t s hinv hmem
    have hmem2 : (t, WNotif.idleFired) ∈
        (s.pending.filter (fun p => decide (p.2 ≤ now))).map
          (fun p => (p.2, WNotif.idleFired)) := hmem
    rw [List.mem_map] at hmem2
    obtain ⟨p, hp, he⟩ := hmem2
    have hdl := hinv.2.2.2 p (List.mem_of_mem_filter hp)
    have : p.2 = t := congrArg Prod.fst he
    omega
  · decide

/-- Witness for C3: the timer scheduled at mount with `timeout = 1`
minute fires at `lastActivity + timeoutMs`. -/
theorem idle_timing_witness :
    (60000 : Nat) = (initState (some 1) 0).lastActivity + timeoutMs (some 1) :=
  idle_timing.1 (some 1) 70000 60000 (initState (some 1) 0)
    (winv_initState (some 1) 0) (by decide)

/-- C4 counterexample: with the default timeout, two plain activity
events at 2,000 ms and 4,000 ms — while the guardian stays Active the
whole run (no idle notification is ever logged) — produce two
`onActive` notifications, refuting "emitted exactly once per
Idle-to-Active transition and never while already Active". -/
theorem onActive_counterexample :
    (runWatchdog (some 15) 0 [(2000, WEvent.activity), (4000, WEvent.activity)] 5000).2
      = [(2000, WNotif.activeFired), (4000, WNotif.activeFired)] := by
  decide

/-- C4 amended: `onActive` fires on every qualifying activity signal
that passes the 1000 ms debounce, regardless of the current idle state
(the log of `handleActivity` does not depend on `isIdle`); a processed
signal also always clears the idle flag, so the notification does fire
on each Idle-to-Active transition — but equally on signals processed
while already Active. -/
theorem onActive_every_processed (cfg : Option Nat) (now : Nat) (s : WState) :
    ((handleActivity cfg now s).2
      = if now - s.lastActivity > 1000 then [(now, WNotif.activeFired)] else []) ∧
    (now - s.lastActivity > 1000 → (handleActivity cfg now s).1.isIdle = false) ∧
    (handleActivity cfg now { s with isIdle := true }).2 = (handleActivity cfg now s).2 := by
  refine ⟨?_, ?_, ?_⟩
  · by_cases hd : now - s.lastActivity > 1000 <;> simp [handleActivity, hd]
  · intro hd
    have hfields := clearTimer_fields { s with lastActivity := now, isIdle := false }
    simp [handleActivity, hd, resetTimer, hfields.2.2.2.1]
  · by_cases hd : now - s.lastActivity > 1000 <;> simp [handleActivity, hd]

/-- Witness for the amended C4: a processed activity clears the idle
flag at a concrete input. -/
theorem onActive_every_processed_witness :
    (handleActivity none 2000 (initState none 0)).1.isIdle = false :=
  (onActive_every_processed none 2000 (initState none 0)).2.1 (by decide)

/-- C5: an activity signal within 1000 ms of the last processed
activity is ignored entirely — same state (no timer rearm, no
timestamp update), no notification; consequently two activity events
less than 1000 ms apart, the first of which passes the debounce,
produce exactly one `onActive` notification, at the first event's
time. -/
theorem debounce_suppression :
    (∀ (cfg : Option Nat) (now : Nat) (s : WState),
      now - s.lastActivity ≤ 1000 → handleActivity cfg now s = (s, [])) ∧
    (∀ (cfg : Option Nat) (s : WState) (t1 t2 endT : Nat), WInv cfg s →
      s.running = true → t1 - s.lastActivity > 1000 → t1 ≤ t2 → t2 - t1 < 1000 →
      ((runFrom cfg s [(t1, WEvent.activity), (t2, WEvent.activity)] endT).2.filter
        (fun e => decide (e.2 = WNotif.activeFired))) = [(t1, WNotif.activeFired)]) := by
  constructor
  · intro cfg now s h
    unfold handleActivity
    rw [if_neg (by omega)]
  · intro cfg s t1 t2 endT hinv hrun hd1 hle hd2
    have hinvA := winv_flushTimer cfg t1 hinv
    have hfA := flushTimer_fields t1 s
    have hrunA : (flushTimer t1 s).1.running = true := by rw [hfA.2.2.2]; exact hrun
    have hdebA : t1 - (flushTimer t1 s).1.lastActivity > 1000 := by rw [hfA.1]; exact hd1
    set sB := resetTimer cfg t1
      { (flushTimer t1 s).1 with lastActivity := t1, isIdle := false } with hsB
    have hactA : handleActivity cfg t1 (flushTimer t1 s).1
        = (sB, [(t1, WNotif.activeFired)]) := by
      rw [hsB]
      unfold handleActivity
      rw [if_pos hdebA]
    have hstepA : stepEvent cfg s (t1, WEvent.activity)
        = (sB, (flushTimer t1 s).2 ++ [(t1, WNotif.activeFired)]) := by
      rw [stepEvent_eq, if_pos hrunA]
      show ((handleActivity cfg t1 (flushTimer t1 s).1).1,
        (flushTimer t1 s).2 ++ (handleActivity cfg t1 (flushTimer t1 s).1).2) = _
      rw [hactA]
    have hclr : (clearTimer
        { (flushTimer t1 s).1 with lastActivity := t1, isIdle := false }).pending = [] :=
      clearTimer_pending_nil (fun p hp => hinvA.2.1 p hp)
    have hBpending : sB.pending = [((flushTimer t1 s).1.nextId, t1 + timeoutMs cfg)] := by
      rw [hsB]
      simp [resetTimer, hclr, clearTimer_nextId]
    have hBlast : sB.lastActivity = t1 := by
      rw [hsB]
      simp [resetTimer, clearTimer_lastActivity]
    have hBrun : sB.running = true := by
      rw [hsB]
      simp [resetTimer, clearTimer_running, hrunA]
    have hT := timeoutMs_ge cfg
    have hfB : flushTimer t2 sB = (sB, []) := by
      apply flushTimer_none
      rw [hBpending]
      intro p hp
      rw [List.mem_singleton] at hp
      subst hp
      simp only
      omega
    have hactB : handleActivity cfg t2 sB = (sB, []) := by
      unfold handleActivity
      rw [if_neg (by rw [hBlast]; omega)]
    have hstepB : stepEvent cfg sB (t2, WEvent.activity) = (sB, []) := by
      rw [stepEvent_eq, hfB]
      show (if sB.running = true then
          ((handleEvent cfg t2 WEvent.activity sB).1,
           [] ++ (handleEvent cfg t2 WEvent.activity sB).2)
        else (sB, [])) = (sB, [])
      rw [if_pos hBrun]
      show ((handleActivity cfg t2 sB).1, [] ++ (handleActivity cfg t2 sB).2) = (sB, [])
      rw [hactB]
      rfl
    rw [runFrom_cons, hstepA]
    dsimp only
    rw [runFrom_cons]
    dsimp only
    rw [hstepB]
    dsimp only
    rw [runFrom_nil]
    simp only [List.filter_append, flush_log_no_active, List.nil_append]
    simp

/-- Witness for C5: a debounced signal at a concrete input is a
no-op. -/
theorem debounce_suppression_witness :
    handleActivity none 500 (initState none 0) = (initState none 0, []) :=
  debounce_suppression.1 none 500 (initState none 0) (by decide)

/-- C6 counterexample: with `timeout = 1` minute and no activity, once
the idle timer has fired (horizon 70,000 ms) the guardian is still
running — its listeners attached — yet no timer is pending, refuting
"exactly one pending timer exists at any time while the guardian is
running". -/
theorem timer_discipline_counterexample :
    (runWatchdog (some 1) 0 [] 70000).1.running = true ∧
    (runWatchdog (some 1) 0 [] 70000).1.pending = [] := by
  decide

/-- C6 amended: at most one timer is pending at any reachable state
(exactly one from mount or any qualifying non-debounced activity until
it fires, none from firing until the next qualifying activity): the
invariant holds at mount and is preserved by every run; a processed
activity replaces the pending timer by exactly one fresh timer; unmount
cancels the pending timer and detaches the listeners; and once stopped
a run changes nothing and emits nothing. -/
theorem timer_discipline :
    (∀ (cfg : Option Nat) (t0 : Nat), WInv cfg (initState cfg t0)) ∧
    (∀ (cfg : Option Nat) (evs : List (Nat × WEvent)) (endT : Nat) (s : WState),
      WInv cfg s → WInv cfg (runFrom cfg s evs endT).1) ∧
    (∀ (cfg : Option Nat) (now : Nat) (s : WState), WInv cfg s →
      now - s.lastActivity > 1000 →
      (handleActivity cfg now s).1.pending = [(s.nextId, now + timeoutMs cfg)]) ∧
    (∀ (cfg : Option Nat) (t : Nat) (s : WState), WInv cfg s →
      (stepEvent cfg s (t, WEvent.unmount)).1.pending = [] ∧
      (stepEvent cfg s (t, WEvent.unmount)).1.running = false) ∧
    (∀ (cfg : Option Nat) (evs : List (Nat × WEvent)) (endT : Nat) (s : WState),
      s.running = false → s.pending = [] → runFrom cfg s evs endT = (s, [])) := by
  refine ⟨winv_initState, fun cfg evs endT s h => winv_runFrom cfg evs endT h, ?_, ?_, ?_⟩
  · intro cfg now s hinv hd
    have hclr : (clearTimer { s with lastActivity := now, isIdle := false }).pending = [] :=
      clearTimer_pending_nil (fun p hp => hinv.2.1 p hp)
    have hnext := (clearTimer_fields { s with lastActivity := now, isIdle := false }).2.2.1
    simp [handleActivity, hd, resetTimer, hclr, hnext]
  · intro cfg t s hinv
    have hinvF := winv_flushTimer cfg t hinv
    by_cases hr : (flushTimer t s).1.running = true
    · have hclr : (clearTimer (flushTimer t s).1).pending = [] :=
        clearTimer_pending_nil (fun p hp => hinvF.2.1 p hp)
      constructor <;>
        · unfold stepEvent
          rw [if_pos hr]
          simp [handleEvent, hclr]
    · have hrf : (flushTimer t s).1.running = false := by
        revert hr
        cases (flushTimer t s).1.running <;> simp
      have hpf : (flushTimer t s).1.pending = [] := hinvF.2.2.1 hrf
      constructor <;>
        · unfold stepEvent
          rw [if_neg hr]
          simp [hpf, hrf]
  · intro cfg evs endT s hr hp
    exact runFrom_stopped cfg evs endT hr hp

/-- Witness for the amended C6: a processed activity at a concrete
input leaves exactly one freshly scheduled timer. -/
theorem timer_discipline_witness :
    (handleActivity (some 1) 5000 (initState (some 1) 0)).1.pending
      = [((initState (some 1) 0).nextId, 5000 + timeoutMs (some 1))] :=
  timer_discipline.2.2.1 (some 1) 5000 (initState (some 1) 0)
    (winv_initState (some 1) 0) (by decide)

/-- C9 counterexample: the tab going hidden at 300 ms and visible again
at 800 ms — with no other activity — produces no notification at all
(the restore falls inside the 1000 ms debounce window measured from the
mount-initialised timestamp), refuting "hidden-then-visible with no
other activity produces exactly one became-active notification". -/
theorem visibility_counterexample :
    (runWatchdog (some 15) 0
      [(300, WEvent.visibilityHidden), (800, WEvent.visibilityVisible)] 2000).2 = [] := by
  decide

/-- C9 amended: a visibility change to hidden is a pure no-op (no state
change, no timer change, no notification); a visibility change to
non-hidden is handled exactly like a qualifying activity signal —
subject to the same 1000 ms debounce — and a hidden-then-visible pair
whose restore falls outside the debounce window yields exactly one
`onActive` notification timed to the restore event. -/
theorem visibility_semantics :
    (∀ (cfg : Option Nat) (t : Nat) (s : WState),
      handleEvent cfg t WEvent.visibilityHidden s = (s, [])) ∧
    (∀ (cfg : Option Nat) (t : Nat) (s : WState),
      handleEvent cfg t WEvent.visibilityVisible s = handleActivity cfg t s) ∧
    (runWatchdog (some 15) 0
      [(30000, WEvent.visibilityHidden), (100000, WEvent.visibilityVisible)] 200000).2
      = [(100000, WNotif.activeFired)] := by
  refine ⟨fun _ _ _ => rfl, fun _ _ _ => rfl, by decide⟩

/-- C10: because `lastActivityRef` is initialised to the mount time,
any qualifying signal — plain activity or visibility restore — arriving
within 1000 ms of the start is dropped whole: the machine state
(timestamp, timers, flags) is unchanged and nothing is notified. -/
theorem startup_debounce (cfg : Option Nat) (t0 t : Nat) (ev : WEvent)
    (hev : ev = WEvent.activity ∨ ev = WEvent.visibilityVisible)
    (ht : t - t0 ≤ 1000) :
    stepEvent cfg (initState cfg t0) (t, ev) = (initState cfg t0, []) := by
  have hpend : (initState cfg t0).pending = [(1, t0 + timeoutMs cfg)] := by
    simp [initState, resetTimer, clearTimer]
  have hlast : (initState cfg t0).lastActivity = t0 := by
    simp [initState, resetTimer, clearTimer]
  have hrun : (initState cfg t0).running = true := by
    simp [initState, resetTimer, clearTimer]
  have hT := timeoutMs_ge cfg
  have hf : flushTimer t (initState cfg t0) = (initState cfg t0, []) := by
    apply flushTimer_none
    rw [hpend]
    intro p hp
    rw [List.mem_singleton] at hp
    subst hp
    simp only
    omega
  have hact : handleActivity cfg t (initState cfg t0) = (initState cfg t0, []) := by
    unfold handleActivity
    rw [if_neg (by rw [hlast]; omega)]
  rcases hev with hev | hev <;> subst hev <;>
    · rw [stepEvent_eq, hf]
      show (if (initState cfg t0).running = true then
          ((handleActivity cfg t (initState cfg t0)).1,
           [] ++ (handleActivity cfg t (initState cfg t0)).2)
        else (initState cfg t0, [])) = (initState cfg t0, [])
      rw [if_pos hrun, hact]
      rfl

/-- Witness for C10: a plain activity at 500 ms after mount is dropped. -/
theorem startup_debounce_witness :
    stepEvent none (initState none 0) (500, WEvent.activity) = (initState none 0, []) :=
  startup_debounce none 0 500 WEvent.activity (Or.inl rfl) (by decide)

/-! ## Concurrent first calls to `getEncryptionKey` (C8)

JavaScript is single-threaded but `getEncryptionKey` suspends at
`await window.crypto.subtle.generateKey(...)`; interleaving happens
only at that await point.  Two concurrent callers are modelled as two
tasks over the shared module state `cachedKey`, each advancing one
scheduler slice at a time: from its start to the await (running the
`if (cachedKey) return cachedKey` check and, on a miss, starting key
generation), and from the await's resumption to completion (running
`cachedKey = <generated key>; return cachedKey`).  `gen i` is the key
produced by the `i`-th `generateKey` invocation (fresh keys, so
distinct invocations give distinct keys when `gen` is injective). -/

/-- Progress of one `getEncryptionKey` call: not yet started its check,
suspended at the `await` of its own `generateKey` invocation `i`, or
returned. -/
inductive RPhase
  | start
  | awaiting (i : Nat)
  | done
deriving DecidableEq

/-- Shared state of two concurrent `getEncryptionKey` calls: the
module-level `cachedKey`, each task's phase and returned value, and how
many `generateKey` invocations have been started. -/
structure RaceState where
  cachedKey : Option Nat
  phaseA : RPhase
  phaseB : RPhase
  retA : Option Nat
  retB : Option Nat
  genCount : Nat
deriving DecidableEq

/-- One scheduler slice of task A (`who = true`) or B (`who = false`),
faithful to the body of `getEncryptionKey`: a task at its start returns
the cached key if present, otherwise starts `generateKey` and suspends;
a resumed task assigns its own generated key to `cachedKey` and returns
the value `cachedKey` then holds. -/
def raceStep (gen : Nat → Nat) (who : Bool) (s : RaceState) : RaceState :=
  match (if who then s.phaseA else s.phaseB) with
  | RPhase.start =>
      match s.cachedKey with
      | some k =>
          if who then { s with phaseA := RPhase.done, retA := some k }
          else { s with phaseB := RPhase.done, retB := some k }
      | none =>
          if who then
            { s with phaseA := RPhase.awaiting s.genCount, genCount := s.genCount + 1 }
          else
            { s with phaseB := RPhase.awaiting s.genCount, genCount := s.genCount + 1 }
  | RPhase.awaiting i =>
      if who then
        { s with cachedKey := some (gen i), phaseA := RPhase.done, retA := some (gen i) }
      else
        { s with cachedKey := some (gen i), phaseB := RPhase.done, retB := some (gen i) }
  | RPhase.done => s

/-- Run a schedule (the order in which the event loop advances the two
tasks). -/
def raceRun (gen : Nat → Nat) (sched : List Bool) (s : RaceState) : RaceState :=
  match sched with
  | [] => s
  | w :: rest => raceRun gen rest (raceStep gen w s)

/-- Both callers start before the cache is populated. -/
def raceInit : RaceState :=
  { cachedKey := none, phaseA := RPhase.start, phaseB := RPhase.start,
    retA := none, retB := none, genCount := 0 }

/-- C8: under the schedule in which both callers run their cache check
before either `generateKey` completes — the race the specification
requires implementations to prevent — the code starts `generateKey`
twice and the two callers return two distinct keys (here with `gen`
the identity: caller A gets key 0, caller B key 1).  Key creation is
not serialized: no in-flight creation is shared. -/
theorem getEncryptionKey_race :
    (raceRun (fun i => i) [true, false, true, false] raceInit).genCount = 2 ∧
    (raceRun (fun i => i) [true, false, true, false] raceInit).retA = some 0 ∧
    (raceRun (fun i => i) [true, false, true, false] raceInit).retB = some 1 ∧
    (raceRun (fun i => i) [true, false, true, false] raceInit).retA
      ≠ (raceRun (fun i => i) [true, false, true, false] raceInit).retB := by
  decide

end ReactGuard
